import Mathlib

/-!
Shallow embedding of the vue-swr-composable core (packages/core/src): the
per-key cache entry `ResourceState`, the default amnesia store, and the fetch
task engine and ownership arbiter of `useSwr`.

JavaScript objects have identity and are mutated in place, which the race
claims depend on, so entries live in a heap (a list indexed by allocation
order) and the store maps the key under consideration to the index of the
entry object it currently holds. In-flight fetch tasks keep the index of the
entry object they were dispatched against, exactly as `executeFetch` closes
over its `state` argument.
-/

namespace VueSwr

/-- ResourceState of types.ts: the per-key cache entry. The JS type
Option A (null or an object holding some value) is embedded as Lean Option;
owners is a JS number that the code only increments and decrements by 1,
embedded as Int so that a negative count is expressible. -/
structure ResourceState (T E : Type) where
  data : Option T
  error : Option E
  pending : Bool
  fresh : Bool
  owners : Int
  deriving Repr, DecidableEq

/-- Backing storage of createAmnesiaStore in amnesia-store.ts: a Map from key
to (ResourceState or null), embedded as an association list where the most
recent set stands first and lookup takes the first match, which is
observationally the same as Map insert-or-overwrite. A key that never appears
in the list is a key absent from the Map. -/
def AmnesiaStorage (K T E : Type) : Type :=
  List (K × Option (ResourceState T E))

namespace AmnesiaStore

/-- Map.prototype.get as used by the amnesia store: the stored value under the
key (itself possibly null, inner none), or undefined (outer none) when the key
is absent from the Map. -/
def mapGet {K T E : Type} [DecidableEq K] (storage : AmnesiaStorage K T E) (key : K) :
    Option (Option (ResourceState T E)) :=
  (storage.find? (fun p => decide (p.1 = key))).map (fun p => p.2)

/-- Method get of createAmnesiaStore: storage.get(key) ?? null. Both a key
absent from the Map and an explicitly stored null collapse to null (none). -/
def get {K T E : Type} [DecidableEq K] (storage : AmnesiaStorage K T E) (key : K) :
    Option (ResourceState T E) :=
  match mapGet storage key with
  | none => none
  | some v => v

/-- Method set of createAmnesiaStore: storage.set(key, state), Map
insert-or-overwrite. -/
def set {K T E : Type} [DecidableEq K] (storage : AmnesiaStorage K T E) (key : K)
    (state : Option (ResourceState T E)) : AmnesiaStorage K T E :=
  (key, state) :: storage

end AmnesiaStore

/-- Point update of a list at an index, leaving the list unchanged when the
index is out of range. This embeds an in-place mutation of one entry object
among all allocated objects. -/
def listModify {α : Type} (f : α → α) : Nat → List α → List α
  | _, [] => []
  | 0, a :: as => f a :: as
  | n + 1, a :: as => a :: listModify f n as

/-- One dispatched fetch task of the engine in use-swr.ts. executeFetch closes
over the entry object it was handed (entryId is that object's heap index);
aborted records whether the abort hook registered via initFetchAbort has been
invoked, which resolves the race promise with FETCH_TASK_ABORTED. -/
structure FetchTask where
  entryId : Nat
  aborted : Bool
  deriving Repr, DecidableEq

/-- View of the engine for one fixed key K. heap lists every ResourceState
object ever allocated for K in allocation order (a list index is an object
identity); store is what store.get(K) yields: the index of the entry object
the store currently holds for K, or none when the storage was cleared for K;
tasks lists every fetch task dispatched, in dispatch order; current is
currentFetchTask of useSwr. -/
structure Sys (T E : Type) where
  heap : List (ResourceState T E)
  store : Option Nat
  tasks : List FetchTask
  current : Option Nat
  deriving Repr, DecidableEq

/-- Value of the computed state in useSwr, that is store.get(keyStatic): the
entry object the store currently holds for K, if any. -/
def Sys.stateOf {T E : Type} (sys : Sys T E) : Option (ResourceState T E) :=
  sys.store.bind (fun i => sys.heap[i]?)

variable {T E : Type}

/-- Initial and reset entry state: the object literal that reset() in useSwr
writes into the store — data null, error null, fresh false, pending false,
owners 0. -/
def resetState : ResourceState T E :=
  { data := none, error := none, pending := false, fresh := false, owners := 0 }

/-- Function reset() of useSwr: store.set(keyStatic, freshLiteral). A new
entry object is allocated and the store maps K to it; entry objects that
in-flight tasks still reference are untouched. -/
def resetStep (sys : Sys T E) : Sys T E :=
  { sys with heap := sys.heap ++ [resetState], store := some sys.heap.length }

/-- External out-of-band clearing of the storage for K, as in
store.storage.clear() of the amnesia store: store.get(K) becomes null.
Entry objects referenced by in-flight tasks are unaffected. -/
def clearStep (sys : Sys T E) : Sys T E :=
  { sys with store := none }

/-- Computed triggerExecuteFetch of useSwr: state.value exists, and neither
state.value.pending nor state.value.fresh. -/
def triggerExecuteFetch (state : Option (ResourceState T E)) : Bool :=
  match state with
  | none => false
  | some s => !s.pending && !s.fresh

/-- Settlement of the user fetch function fetch.fn: it resolves with a value
or rejects with an error. -/
inductive FnOutcome (T E : Type) where
  | resolved (v : T)
  | rejected (e : E)
  deriving Repr, DecidableEq

/-- Settlement of the wrapper promise awaited inside executeFetch: the abort
hook resolving FETCH_TASK_ABORTED, a resolution of fetch.fn, or a rejection
of fetch.fn. -/
inductive RaceResult (T E : Type) where
  | taskAborted
  | resolved (v : T)
  | rejected (e : E)
  deriving Repr, DecidableEq

/-- Race semantics of the wrapper promise in executeFetch: a promise settles
once, with the first settlement offered. abortedFirst says the abort hook
fired before fetch.fn settled; in that case the promise holds
FETCH_TASK_ABORTED and the later resolution or rejection of fetch.fn is
ignored by promise semantics. -/
def fetchRace (abortedFirst : Bool) (out : FnOutcome T E) : RaceResult T E :=
  if abortedFirst then RaceResult.taskAborted
  else
    match out with
    | FnOutcome.resolved v => RaceResult.resolved v
    | FnOutcome.rejected e => RaceResult.rejected e

/-- Synchronous prefix of executeFetch, run at dispatch before fetch.fn is
invoked: state.pending = true on the entry object the task was dispatched
against. -/
def executeFetchStart (heap : List (ResourceState T E)) (eid : Nat) :
    List (ResourceState T E) :=
  listModify (fun s => { s with pending := true }) eid heap

/-- Resumption of executeFetch after the awaited race settles. On
FETCH_TASK_ABORTED it returns at once, mutating nothing. On resolution it
writes data = some v, fresh = true, error = none, pending = false. On
rejection (the catch branch) it writes error = some e, fresh = true,
pending = false and leaves data untouched. Every write goes to the entry
object the task was dispatched against. -/
def executeFetchSettle (heap : List (ResourceState T E)) (eid : Nat)
    (r : RaceResult T E) : List (ResourceState T E) :=
  match r with
  | RaceResult.taskAborted => heap
  | RaceResult.resolved v =>
      listModify
        (fun s => { s with data := some v, fresh := true, error := none, pending := false })
        eid heap
  | RaceResult.rejected e =>
      listModify (fun s => { s with error := some e, fresh := true, pending := false }) eid heap

/-- Delivery of the abort signal to task i: abort() of initFetchAbort runs the
registered hooks, and the hook executeFetch registered resolves the race with
FETCH_TASK_ABORTED. No cache entry is touched. -/
def deliverAbort (sys : Sys T E) (i : Nat) : Sys T E :=
  { sys with tasks := listModify (fun t => { t with aborted := true }) i sys.tasks }

/-- Function abortFetchTaskIfThereIsSome of useSwr, also run at scope
teardown: deliver the abort signal to the current task, if any, and null out
currentFetchTask. -/
def abortCurrent (sys : Sys T E) : Sys T E :=
  match sys.current with
  | some i => { deliverAbort sys i with current := none }
  | none => sys

/-- Handler of the watch on [triggerExecuteFetch, state] in useSwr: when the
trigger computed is true, abort any current task, then dispatch executeFetch
against the entry object the store currently holds (running its synchronous
prefix, which sets pending) and record the new task as current. When the
trigger is false, do nothing. -/
def fetchWatchStep (sys : Sys T E) : Sys T E :=
  if triggerExecuteFetch sys.stateOf then
    match sys.store with
    | some eid =>
        let s := abortCurrent sys
        { heap := executeFetchStart s.heap eid
          store := s.store
          tasks := s.tasks ++ [{ entryId := eid, aborted := false }]
          current := some s.tasks.length }
    | none => sys
  else sys

/-- Event: the race promise of task i settles, out being the settlement of
fetch.fn. The commit is executeFetchSettle on the entry object the task was
dispatched against; the finally clause in useSwr nulls currentFetchTask when
the settled task is still the current one. -/
def settleStep (sys : Sys T E) (i : Nat) (out : FnOutcome T E) : Sys T E :=
  match sys.tasks[i]? with
  | none => sys
  | some t =>
      { sys with
        heap := executeFetchSettle sys.heap t.entryId (fetchRace t.aborted out)
        current := if sys.current = some i then none else sys.current }

/-- Handler of the immediate watch on state in useResourceOwnership: when
state.value exists, state.value.owners is incremented and committed becomes
true; when it does not, committed becomes false. Returns the updated system
and the updated committed flag. -/
def ownershipWatchStep (sys : Sys T E) (_committed : Bool) : Sys T E × Bool :=
  match sys.store with
  | some eid =>
      match sys.heap[eid]? with
      | some _ =>
          ({ sys with heap := listModify (fun s => { s with owners := s.owners + 1 }) eid sys.heap },
           true)
      | none => (sys, false)
  | none => (sys, false)

/-- Block onScopeDispose of useResourceOwnership: when committed and
state.value exists, state.value.owners is decremented — the decrement hits
whatever entry object the store holds at disposal time. -/
def ownershipDispose (sys : Sys T E) (committed : Bool) : Sys T E :=
  if committed then
    match sys.store with
    | some eid =>
        match sys.heap[eid]? with
        | some _ =>
            { sys with heap := listModify (fun s => { s with owners := s.owners - 1 }) eid sys.heap }
        | none => sys
    | none => sys
  else sys

/-- Computed confirmed of useResourceOwnership: state.value exists, and
state.value.owners === 1, and committed.value. -/
def ownershipConfirmed (state : Option (ResourceState T E)) (committed : Bool) : Bool :=
  match state with
  | none => false
  | some s => decide (s.owners = 1) && committed

/-- Concrete system with one entry in the initial state held by the store and
one in-flight task dispatched against it, used to instantiate the hypotheses
of the race theorems. -/
def sampleRunning : Sys Nat Nat :=
  { heap := [resetState], store := some 0,
    tasks := [{ entryId := 0, aborted := false }], current := some 0 }

/-- Concrete system with one fetched entry (data present, fresh) and an
in-flight refresh task against it. -/
def sampleRefreshing : Sys Nat Nat :=
  { heap := [{ data := some 1, error := none, pending := true, fresh := false, owners := 1 }],
    store := some 0,
    tasks := [{ entryId := 0, aborted := false }], current := some 0 }

/-- Concrete single-consumer system for the ownership claims: one entry in
the initial state, held by the store, no consumer committed yet. -/
def c4Start : Sys Nat Nat :=
  { heap := [resetState], store := some 0, tasks := [], current := none }

/-- Binding of the consumer: the arbiter's immediate watch runs, incrementing
owners on the bound entry and committing. -/
def c4Bound : Sys Nat Nat × Bool := ownershipWatchStep c4Start false

/-- Trace in which reset() replaces the entry and the consumer's scope is
disposed in the same turn: scope teardown runs synchronously (the key watcher
that stops the scope is queued before the arbiter's watcher and stopping the
scope drops the arbiter's queued re-run), so onScopeDispose observes the still
set committed flag together with the replacement entry the store now holds. -/
def c4Final : Sys Nat Nat := ownershipDispose (resetStep c4Bound.1) c4Bound.2

/-- Concrete engine system for the cancellation claims: one stale idle entry
owned by a confirmed consumer. -/
def c8Start : Sys Nat Nat :=
  { heap := [{ data := none, error := none, pending := false, fresh := false, owners := 1 }],
    store := some 0, tasks := [], current := none }

/-- Trace: the trigger dispatches a task, the task is cancelled with no store
reset, and its operation later resolves; the settlement is discarded. -/
def c8AfterCancel : Sys Nat Nat :=
  settleStep (abortCurrent (fetchWatchStep c8Start)) 0 (FnOutcome.resolved 5)

theorem listModify_length {α : Type} (f : α → α) (n : Nat) (l : List α) :
    (listModify f n l).length = l.length := by
  induction l generalizing n with
  | nil => cases n <;> rfl
  | cons a as ih =>
    cases n with
    | zero => simp [listModify]
    | succ n => simp [listModify, ih]

theorem listModify_getElem_self {α : Type} (f : α → α) (n : Nat) (l : List α) :
    (listModify f n l)[n]? = l[n]?.map f := by
  induction l generalizing n with
  | nil => cases n <;> simp [listModify]
  | cons a as ih =>
    cases n with
    | zero => simp [listModify]
    | succ n => simpa [listModify] using ih n

theorem listModify_getElem_ne {α : Type} (f : α → α) (m n : Nat) (l : List α)
    (h : m ≠ n) : (listModify f m l)[n]? = l[n]? := by
  induction l generalizing m n with
  | nil => cases m <;> simp [listModify]
  | cons a as ih =>
    cases m with
    | zero =>
      cases n with
      | zero => exact absurd rfl h
      | succ n => simp [listModify]
    | succ m =>
      cases n with
      | zero => simp [listModify]
      | succ n => simpa [listModify] using ih m n (by omega)

theorem abortCurrent_heap (sys : Sys T E) : (abortCurrent sys).heap = sys.heap := by
  cases h : sys.current <;> simp [abortCurrent, deliverAbort, h]

theorem abortCurrent_store (sys : Sys T E) : (abortCurrent sys).store = sys.store := by
  cases h : sys.current <;> simp [abortCurrent, deliverAbort, h]

theorem abortCurrent_tasks_length (sys : Sys T E) :
    (abortCurrent sys).tasks.length = sys.tasks.length := by
  cases h : sys.current <;> simp [abortCurrent, deliverAbort, h, listModify_length]

theorem settleStep_store (sys : Sys T E) (i : Nat) (out : FnOutcome T E) :
    (settleStep sys i out).store = sys.store := by
  cases h : sys.tasks[i]? <;> simp [settleStep, h]

theorem settleStep_tasks (sys : Sys T E) (i : Nat) (out : FnOutcome T E) :
    (settleStep sys i out).tasks = sys.tasks := by
  cases h : sys.tasks[i]? <;> simp [settleStep, h]

theorem executeFetchSettle_getElem_ne (heap : List (ResourceState T E)) (eid j : Nat)
    (r : RaceResult T E) (h : eid ≠ j) :
    (executeFetchSettle heap eid r)[j]? = heap[j]? := by
  cases r <;> simp [executeFetchSettle, listModify_getElem_ne _ _ _ _ h]

theorem stateOf_congr (sys₁ sys₂ : Sys T E) (hh : sys₁.heap = sys₂.heap)
    (hs : sys₁.store = sys₂.store) : sys₁.stateOf = sys₂.stateOf := by
  simp [Sys.stateOf, hh, hs]

theorem triggerExecuteFetch_eq_true_iff (st : Option (ResourceState T E)) :
    triggerExecuteFetch st = true ↔
      ∃ s, st = some s ∧ s.pending = false ∧ s.fresh = false := by
  cases st with
  | none => simp [triggerExecuteFetch]
  | some s => simp [triggerExecuteFetch]

theorem stateOf_eq_some {sys : Sys T E} {s : ResourceState T E}
    (h : sys.stateOf = some s) :
    ∃ eid, sys.store = some eid ∧ sys.heap[eid]? = some s := by
  cases hst : sys.store with
  | none => simp [Sys.stateOf, hst] at h
  | some eid => exact ⟨eid, rfl, by simpa [Sys.stateOf, hst] using h⟩

/-- C1: a fetch task in flight when the store entry for K is externally
cleared or reset writes, on its late settlement — success or failure alike —
none of the fields of the entry the store holds for K after the reset: that
entry still holds exactly the reset state. The commit of executeFetch goes to
the entry object the task closed over, while the reset made the store hold a
freshly allocated object. Stated both for a direct reset() and for an
external clear followed by the deferred bootstrap reset of useSwr. -/
theorem c1_late_settlement_never_reaches_post_reset_entry (sys : Sys T E)
    (i : Nat) (t : FetchTask) (out : FnOutcome T E)
    (ht : sys.tasks[i]? = some t) (hid : t.entryId < sys.heap.length) :
    (settleStep (resetStep sys) i out).stateOf = some resetState ∧
    (settleStep (resetStep (clearStep sys)) i out).stateOf = some resetState := by
  have hne : t.entryId ≠ sys.heap.length := Nat.ne_of_lt hid
  constructor
  · simp [settleStep, resetStep, ht, Sys.stateOf,
      executeFetchSettle_getElem_ne _ _ _ _ hne, List.getElem?_concat_length]
  · simp [settleStep, resetStep, clearStep, ht, Sys.stateOf,
      executeFetchSettle_getElem_ne _ _ _ _ hne, List.getElem?_concat_length]

theorem c1_witness :
    (settleStep (resetStep sampleRunning) 0 (FnOutcome.resolved 7)).stateOf =
      some resetState :=
  (c1_late_settlement_never_reaches_post_reset_entry sampleRunning 0
    { entryId := 0, aborted := false } (FnOutcome.resolved 7) rfl (by decide)).1

/-- C2: when the abort signal is delivered to a task before its operation
settles, the race promise already holds FETCH_TASK_ABORTED, so the eventual
settlement of the operation — resolution and rejection alike — mutates no
field (data, error, pending, fresh, owners) of any cache entry: the heap is
unchanged. -/
theorem c2_abort_before_settlement_mutates_nothing (sys : Sys T E) (i : Nat)
    (out : FnOutcome T E) (h : i < sys.tasks.length) :
    fetchRace true out = RaceResult.taskAborted ∧
    (settleStep (deliverAbort sys i) i out).heap = sys.heap := by
  refine ⟨rfl, ?_⟩
  have ht : (listModify (fun t : FetchTask => { t with aborted := true }) i sys.tasks)[i]? =
      some { entryId := sys.tasks[i].entryId, aborted := true } := by
    simp [listModify_getElem_self, List.getElem?_eq_getElem h]
  simp [settleStep, deliverAbort, ht, fetchRace, executeFetchSettle]

theorem c2_witness :
    fetchRace true (FnOutcome.rejected 3 : FnOutcome Nat Nat) = RaceResult.taskAborted ∧
    (settleStep (deliverAbort sampleRefreshing 0) 0 (FnOutcome.rejected 3)).heap =
      sampleRefreshing.heap :=
  c2_abort_before_settlement_mutates_nothing sampleRefreshing 0
    (FnOutcome.rejected 3) (by decide)

/-- C3: the derived exclusively-confirmed signal of useResourceOwnership is
true exactly when the bound store entry exists, that entry's owners field
equals 1, and this consumer's committed flag is set. -/
theorem c3_confirmed_iff_exists_owners_one_committed
    (st : Option (ResourceState T E)) (committed : Bool) :
    ownershipConfirmed st committed = true ↔
      ∃ s, st = some s ∧ s.owners = 1 ∧ committed = true := by
  cases st with
  | none => simp [ownershipConfirmed]
  | some s => simp [ownershipConfirmed]

/-- C4 counterexample: after bind (owners becomes 1 on the bound entry,
committed true), a reset() (the store now holds a fresh entry with owners 0)
and a disposal that runs before the arbiter's watch re-runs, the guarded
decrement executes against the replacement entry and drives its owners to -1
— owners does underflow below 0 — while the formerly bound entry keeps
owners 1 and is never decremented. -/
theorem c4_counterexample_owners_underflow :
    (c4Final.stateOf).map ResourceState.owners = some (-1) ∧
    (c4Final.heap[0]?).map ResourceState.owners = some 1 := by decide

/-- C4 amended: the disposal decrement is guarded by the committed flag — a
consumer that never committed decrements nothing, and a committed consumer
decrements the owners of the entry the store holds at disposal time by
exactly one, leaving every other entry untouched; the commitment flag is
cleared by the arbiter's watch when the entry disappears. When the store
still holds the entry bound at commitment, the decrement exactly cancels the
commitment's increment, so owners returns to its pre-binding value and does
not drop below 0 if it was nonnegative; only an interleaved replacement of
the entry between commitment and disposal escapes this, as the
counterexample records. -/
theorem c4_amended_guarded_decrement (sys : Sys T E) (eid : Nat)
    (s : ResourceState T E) (hstore : sys.store = some eid)
    (hs : sys.heap[eid]? = some s) :
    ownershipDispose sys false = sys ∧
    ((ownershipDispose sys true).heap[eid]? = some { s with owners := s.owners - 1 } ∧
      ∀ j, j ≠ eid → (ownershipDispose sys true).heap[j]? = sys.heap[j]?) ∧
    ((ownershipWatchStep sys false).2 = true ∧
      (ownershipDispose (ownershipWatchStep sys false).1 true).heap[eid]? = some s) ∧
    (0 ≤ s.owners →
      ∀ s₂, (ownershipDispose (ownershipWatchStep sys false).1 true).heap[eid]? = some s₂ →
        0 ≤ s₂.owners) ∧
    (ownershipWatchStep (clearStep sys) true).2 = false := by
  have hbind :
      (ownershipWatchStep sys false).1.heap[eid]? = some { s with owners := s.owners + 1 } := by
    simp [ownershipWatchStep, hstore, hs, listModify_getElem_self]
  have hbindstore : (ownershipWatchStep sys false).1.store = some eid := by
    simp [ownershipWatchStep, hstore, hs]
  have hrestore :
      (ownershipDispose (ownershipWatchStep sys false).1 true).heap[eid]? = some s := by
    simp only [ownershipDispose, if_true, hbindstore, hbind]
    simp [listModify_getElem_self, hbind]
  refine ⟨rfl, ⟨?_, ?_⟩, ⟨?_, hrestore⟩, ?_, ?_⟩
  · simp [ownershipDispose, hstore, hs, listModify_getElem_self]
  · intro j hj
    simp [ownershipDispose, hstore, hs, listModify_getElem_ne _ _ _ _ (fun h => hj h.symm)]
  · simp [ownershipWatchStep, hstore, hs]
  · intro hnn s₂ hs₂
    rw [hrestore] at hs₂
    cases hs₂
    exact hnn
  · simp [ownershipWatchStep, clearStep]

theorem c4_amended_witness :
    (ownershipDispose (ownershipWatchStep c4Start false).1 true).heap[0]? =
      some resetState :=
  (c4_amended_guarded_decrement c4Start 0 resetState rfl rfl).2.2.1.2

/-- C5: while ownership is confirmed, the watch of useSwr begins a fetch task
exactly when the entry exists with pending false and fresh false (the
triggerExecuteFetch computed), and a dispatched task sets pending = true on
that entry synchronously, in the prefix of executeFetch that runs before
fetch.fn is invoked. -/
theorem c5_trigger_exactly_and_pending_set_synchronously (sys : Sys T E) :
    ((fetchWatchStep sys).tasks.length = sys.tasks.length + 1 ↔
      ∃ s, sys.stateOf = some s ∧ s.pending = false ∧ s.fresh = false) ∧
    (∀ eid s, sys.store = some eid → sys.heap[eid]? = some s →
      triggerExecuteFetch sys.stateOf = true →
      (fetchWatchStep sys).heap[eid]? = some { s with pending := true }) := by
  constructor
  · rw [← triggerExecuteFetch_eq_true_iff]
    cases h : triggerExecuteFetch sys.stateOf with
    | false =>
      have hfw : fetchWatchStep sys = sys := by simp [fetchWatchStep, h]
      rw [hfw]
      simp
    | true =>
      obtain ⟨s, hst, hp, hf⟩ := (triggerExecuteFetch_eq_true_iff _).mp h
      obtain ⟨eid, hstore, hs⟩ := stateOf_eq_some hst
      simp [fetchWatchStep, h, hstore, abortCurrent_tasks_length]
  · intro eid s hstore hs htr
    simp [fetchWatchStep, htr, hstore, executeFetchStart, abortCurrent_heap,
      listModify_getElem_self, hs]

theorem c5_witness :
    (fetchWatchStep c8Start).heap[0]? =
      some { data := none, error := none, pending := true, fresh := false, owners := 1 } :=
  (c5_trigger_exactly_and_pending_set_synchronously c8Start).2 0
    { data := none, error := none, pending := false, fresh := false, owners := 1 }
    rfl rfl (by decide)

/-- C6: a task that was not cancelled (its abort hook never fired, so the
race settles with the settlement of fetch.fn) and whose operation resolves
with v commits data = some v, error = none, fresh = true, pending = false on
the entry object it was dispatched against, leaving owners untouched. -/
theorem c6_success_commit (sys : Sys T E) (i : Nat) (t : FetchTask)
    (s : ResourceState T E) (v : T)
    (ht : sys.tasks[i]? = some t) (hab : t.aborted = false)
    (hs : sys.heap[t.entryId]? = some s) :
    (settleStep sys i (FnOutcome.resolved v)).heap[t.entryId]? =
      some { data := some v, error := none, pending := false, fresh := true,
             owners := s.owners } := by
  simp [settleStep, ht, hab, fetchRace, executeFetchSettle, listModify_getElem_self, hs]

theorem c6_witness :
    (settleStep sampleRunning 0 (FnOutcome.resolved 7)).heap[0]? =
      some { data := some 7, error := none, pending := false, fresh := true,
             owners := 0 } :=
  c6_success_commit sampleRunning 0 { entryId := 0, aborted := false }
    resetState 7 rfl rfl rfl

/-- C7: a task that was not cancelled and whose operation rejects with e
commits error = some e, fresh = true, pending = false on the entry object it
was dispatched against, and leaves data unchanged — a refresh failure retains
the prior data value if one exists. -/
theorem c7_failure_commit_retains_data (sys : Sys T E) (i : Nat) (t : FetchTask)
    (s : ResourceState T E) (e : E)
    (ht : sys.tasks[i]? = some t) (hab : t.aborted = false)
    (hs : sys.heap[t.entryId]? = some s) :
    (settleStep sys i (FnOutcome.rejected e)).heap[t.entryId]? =
      some { data := s.data, error := some e, pending := false, fresh := true,
             owners := s.owners } := by
  simp [settleStep, ht, hab, fetchRace, executeFetchSettle, listModify_getElem_self, hs]

theorem c7_witness :
    (settleStep sampleRefreshing 0 (FnOutcome.rejected 9)).heap[0]? =
      some { data := some 1, error := some 9, pending := false, fresh := true,
             owners := 1 } :=
  c7_failure_commit_retains_data sampleRefreshing 0 { entryId := 0, aborted := false }
    { data := some 1, error := none, pending := true, fresh := false, owners := 1 }
    9 rfl rfl rfl

/-- C8 counterexample: from a stale idle entry the trigger dispatches a task,
the task is cancelled with no store reset, and its operation later resolves.
The cancellation mutates nothing, so pending — set true at dispatch — stays
true; the entry is stale (fresh false), no task is in flight, and the active
engine's watch evaluation is a fixed point: no subsequent trigger ever starts
a fresh fetch task, contrary to the claim. -/
theorem c8_counterexample_no_subsequent_trigger :
    (c8AfterCancel.stateOf).map ResourceState.fresh = some false ∧
    (c8AfterCancel.stateOf).map ResourceState.pending = some true ∧
    c8AfterCancel.current = none ∧
    fetchWatchStep c8AfterCancel = c8AfterCancel := by decide

/-- C8 amended: a task cancelled while in flight without an external store
reset mutates no cache-entry field — neither at abort delivery nor at its
late settlement — and in particular pending, set true at dispatch, remains
true; therefore the trigger condition (pending false) stays unsatisfied and
the active engine starts no subsequent fetch task, staleness notwithstanding,
until the entry is replaced or pending is cleared out of band. -/
theorem c8_amended_cancel_no_mutation_blocks_retrigger (sys : Sys T E)
    (i : Nat) (out : FnOutcome T E)
    (hcur : sys.current = some i) (hi : i < sys.tasks.length) :
    (abortCurrent sys).heap = sys.heap ∧
    (settleStep (abortCurrent sys) i out).heap = sys.heap ∧
    (∀ s, sys.stateOf = some s → s.pending = true →
      fetchWatchStep (settleStep (abortCurrent sys) i out) =
        settleStep (abortCurrent sys) i out) := by
  have habh : (abortCurrent sys).heap = sys.heap := abortCurrent_heap sys
  have htasks : (abortCurrent sys).tasks[i]? = some { sys.tasks[i] with aborted := true } := by
    simp [abortCurrent, hcur, deliverAbort, listModify_getElem_self,
      List.getElem?_eq_getElem hi]
  have hsettleh : (settleStep (abortCurrent sys) i out).heap = sys.heap := by
    simp [settleStep, htasks, fetchRace, executeFetchSettle, habh]
  refine ⟨habh, hsettleh, ?_⟩
  intro s hst hp
  have hstate : (settleStep (abortCurrent sys) i out).stateOf = some s := by
    rw [stateOf_congr _ sys hsettleh
      ((settleStep_store _ _ _).trans (abortCurrent_store sys))]
    exact hst
  have htr : triggerExecuteFetch (settleStep (abortCurrent sys) i out).stateOf = false := by
    rw [hstate]
    simp [triggerExecuteFetch, hp]
  simp [fetchWatchStep, htr]

theorem c8_amended_witness :
    (abortCurrent sampleRefreshing).heap = sampleRefreshing.heap ∧
    (settleStep (abortCurrent sampleRefreshing) 0 (FnOutcome.resolved 4)).heap =
      sampleRefreshing.heap ∧
    (∀ s, sampleRefreshing.stateOf = some s → s.pending = true →
      fetchWatchStep (settleStep (abortCurrent sampleRefreshing) 0 (FnOutcome.resolved 4)) =
        settleStep (abortCurrent sampleRefreshing) 0 (FnOutcome.resolved 4)) :=
  c8_amended_cancel_no_mutation_blocks_retrigger sampleRefreshing 0
    (FnOutcome.resolved 4) rfl (by decide)

/-- C9: reset() replaces the store's entry for the current key with a fresh
object in the initial state (data none, error none, pending false, fresh
false, owners 0); that state makes the trigger computed true, so the active
engine's watch dispatches a new fetch task on its next evaluation. -/
theorem c9_reset_reinitializes_and_retriggers (sys : Sys T E) :
    (resetStep sys).stateOf =
      some { data := none, error := none, pending := false, fresh := false,
             owners := 0 } ∧
    triggerExecuteFetch (resetStep sys).stateOf = true ∧
    (fetchWatchStep (resetStep sys)).tasks.length = (resetStep sys).tasks.length + 1 := by
  have hst : (resetStep sys).stateOf = some (resetState : ResourceState T E) := by
    simp [resetStep, Sys.stateOf, List.getElem?_concat_length]
  refine ⟨hst, ?_, ?_⟩
  · rw [hst]; rfl
  · have htr : triggerExecuteFetch (resetStep sys).stateOf = true := by rw [hst]; rfl
    have hstore : (resetStep sys).store = some sys.heap.length := rfl
    simp only [fetchWatchStep, htr, if_true, hstore]
    simp [abortCurrent_tasks_length]

/-- C10: for the default amnesia store, get is a left inverse of set up to the
collapsing of a stored null and a never-stored key: after set(k, some s),
get k returns some s; after set(k, none), and on the empty storage before any
set for k, get k returns none. -/
theorem c10_amnesia_get_left_inverse_of_set (K T E : Type) [DecidableEq K]
    (storage : AmnesiaStorage K T E) (key : K) (s : ResourceState T E) :
    AmnesiaStore.get (AmnesiaStore.set storage key (some s)) key = some s ∧
    AmnesiaStore.get (AmnesiaStore.set storage key none) key = none ∧
    AmnesiaStore.get ([] : AmnesiaStorage K T E) key = none := by
  refine ⟨?_, ?_, ?_⟩ <;>
    simp [AmnesiaStore.get, AmnesiaStore.set, AmnesiaStore.mapGet, List.find?]

end VueSwr
